import Mathlib

/-!
Verification of the geo-partitioned harvest orchestrator (`main.py`,
`server.py`, `scraper/grid.py`, `scraper/engine.py`, `scraper/extractor.py`).

The Python code is shallowly embedded: strings are Lean `String`s with
Python's `str.strip` / `str.lower` / slicing modelled char-wise on the
underlying character list; Python floats are modelled as exact rationals
(`ℚ`), with `math.sqrt`, `math.ceil` modelled over `ℝ`; external effects
(the Playwright page, the regex engine, the MongoDB job store) are
parameters of the embedded control loops.
-/

namespace Anti

/-- Python `str.strip()`: drop whitespace from both ends of a string
(modelled on the character list so it is kernel-computable). -/
def pyStrip (s : String) : String :=
  ⟨((s.data.dropWhile Char.isWhitespace).reverse.dropWhile Char.isWhitespace).reverse⟩

/-- Python `str.lower()`: lowercase every character. -/
def pyLower (s : String) : String :=
  ⟨s.data.map Char.toLower⟩

/-- Python `s[:n]`: the first `n` characters of `s`. -/
def pySlice (n : ℕ) (s : String) : String :=
  ⟨s.data.take n⟩

/-- One scraped record, as built by `ScraperEngine._process_single_item`
(`engine.py` lines 270-279).  All fields other than the ones consulted by
the dedup key are carried for completeness; optional fields model Python
`None`. -/
structure Item where
  name : Option String
  category : Option String
  address : Option String
  website : Option String
  email : Option String
  phone : Option String
  location_link : Option String
  raw_text : Option String
deriving DecidableEq

/-- The dedup key derivation of `main.py` lines 118-130 (identical in
`server.py` lines 131-141): clean the name by lowercasing then stripping,
strip phone and website, and pick the first applicable rule — phone key,
else website key, else name plus the first 20 characters of the raw
snippet (lowercased and stripped). -/
def makeKey (item : Item) : String :=
  let name_clean := pyStrip (pyLower (item.name.getD ""))
  let phone_clean := pyStrip (item.phone.getD "")
  let website_clean := pyStrip (item.website.getD "")
  if phone_clean ≠ "" then name_clean ++ "|" ++ phone_clean
  else if website_clean ≠ "" then name_clean ++ "|" ++ website_clean
  else name_clean ++ "|" ++ pyStrip (pyLower (pySlice 20 (item.raw_text.getD "")))

/-- The orchestrator's accumulation state: the ordered result list
`all_results` and the key set `unique_ids` (`main.py` lines 43-44,
`server.py` lines 76-77; the Python `set` is modelled as a list queried
by membership). -/
structure AccState where
  all_results : List Item
  unique_ids : List String
deriving DecidableEq

/-- Offering one record to the accumulator (`main.py` lines 132-135,
`server.py` lines 143-146): insert only if the derived key is new. -/
def insertItem (s : AccState) (item : Item) : AccState :=
  let key := makeKey item
  if key ∈ s.unique_ids then s
  else { all_results := s.all_results ++ [item], unique_ids := key :: s.unique_ids }

/-- Offering one tile's batch of records, in feed order (`main.py` lines
117-135). -/
def insertBatch (s : AccState) (batch : List Item) : AccState :=
  batch.foldl insertItem s

/-- A whole grid-mining accumulation run: successive tile batches folded
into the initially empty state. -/
def runAccum (batches : List (List Item)) : AccState :=
  batches.foldl insertBatch ⟨[], []⟩

/-- Well-formedness of the accumulation state: result keys are pairwise
distinct and `unique_ids` holds exactly the keys of `all_results`. -/
def Inv (s : AccState) : Prop :=
  (s.all_results.map makeKey).Nodup ∧
  ∀ k, k ∈ s.unique_ids ↔ k ∈ s.all_results.map makeKey

/-- Python `int(q)` for a rational: truncation toward zero, as applied to
`size_km / step_km` in `grid.py` line 27 and `main.py` line 84. -/
def ratTrunc (q : ℚ) : ℤ :=
  if 0 ≤ q then ⌊q⌋ else ⌈q⌉

/-- `GridGenerator.generate_grid` (`grid.py` lines 5-46) over exact
rationals.  `cos_lat` is the externally computed value of
`math.cos(math.radians(center_lat))`.  The Python `range` over a possibly
negative bound is modelled by clamping with `Int.toNat`, and the
incrementally accumulated coordinates by their closed forms
`start + index * step`. -/
def generate_grid (center_lat center_lon size_km step_km cos_lat : ℚ) : List (ℚ × ℚ) :=
  let lat_step_deg : ℚ := step_km / 111
  let lon_step_deg : ℚ := step_km / (111 * cos_lat)
  let steps : ℤ := ratTrunc (size_km / step_km)
  let start_lat : ℚ := center_lat - steps * lat_step_deg
  let start_lon : ℚ := center_lon - steps * lon_step_deg
  let side : ℕ := (steps * 2 + 1).toNat
  (List.range side).flatMap fun i : ℕ =>
    (List.range side).map fun j : ℕ =>
      (start_lat + (i : ℚ) * lat_step_deg, start_lon + (j : ℚ) * lon_step_deg)

/-- `needed_tiles = (total_target // 100) + 1` (`main.py` line 83). -/
def needed_tiles (total_target : ℕ) : ℕ :=
  total_target / 100 + 1

/-- `current_steps = int(grid_size / step_km)` (`main.py` line 84). -/
def current_steps (grid_size step_km : ℚ) : ℤ :=
  ratTrunc (grid_size / step_km)

/-- `current_tiles = (current_steps * 2 + 1) ** 2` (`main.py` line 85). -/
def current_tiles (grid_size step_km : ℚ) : ℤ :=
  (current_steps grid_size step_km * 2 + 1) ^ 2

/-- `needed_steps = math.ceil((math.sqrt(needed_tiles) - 1) / 2)`
(`main.py` line 91), with the float square root modelled as the exact
real square root. -/
noncomputable def needed_steps (n : ℕ) : ℤ :=
  ⌈(Real.sqrt n - 1) / 2⌉

/-- The grid size actually passed to `generate_grid` by `main.py` lines
84-95: the configured one, or — when the configured grid is too small for
the target — the auto-expanded `needed_steps * step_km + 1` with
`step_km = 2.0`. -/
noncomputable def final_grid_size (total_target : ℕ) (grid_size : ℚ) : ℚ :=
  if current_tiles grid_size 2 < (needed_tiles total_target : ℤ) then
    (needed_steps (needed_tiles total_target) : ℚ) * 2 + 1
  else grid_size

/-- Job lifecycle statuses stored in the job record (`server.py`). -/
inductive JobStatus where
  | pending
  | running
  | stopping
  | stopped
  | completed
  | failed
deriving DecidableEq

/-- State threaded through the grid-mining loop of `run_scraper_async`:
the job status in the store, the accumulation state, and the indices of
tiles for which the scraper was actually invoked. -/
structure RunState where
  status : JobStatus
  results : AccState
  invoked : List ℕ
deriving DecidableEq

/-- Outcome of `scraper.run` on one tile followed by the dedup pass:
`some items` accumulates the batch, `none` models a raised exception
caught by the tile-level handler, which leaves the accumulation
unchanged (`server.py` lines 126-152, `main.py` lines 111-142). -/
def applyBatch (b : Option (List Item)) (s : AccState) : AccState :=
  match b with
  | some items => insertBatch s items
  | none => s

/-- The grid-mining tile loop of `run_scraper_async` (`server.py` lines
112-162).  `batches i` is the outcome of harvesting tile `i`;
`stopDuring i = true` means a stop request (`stop_job`, `server.py` lines
241-254) arrives while tile `i` is being harvested, flipping a `running`
status to `stopping`.  Each iteration first checks `is_job_active()`
(status still `running`), then the remaining count, then harvests the
tile; falling off the end of the tile list, or breaking on a met target,
sets status `completed`.  `tileStep` is the body of one iteration past
the two boundary checks: harvest tile `i`, record the invocation, and
let a stop request arriving during the harvest flip `running` to
`stopping` (the guard in `stop_job` only acts on a `running` job). -/
def tileStep (batches : ℕ → Option (List Item)) (stopDuring : ℕ → Bool)
    (i : ℕ) (s : RunState) : RunState :=
  if stopDuring i ∧ s.status = JobStatus.running then
    { status := JobStatus.stopping, results := applyBatch (batches i) s.results,
      invoked := s.invoked ++ [i] }
  else
    { s with results := applyBatch (batches i) s.results, invoked := s.invoked ++ [i] }

/-- The grid-mining tile loop itself, one `tileStep` per surviving
iteration; see the comment on `tileStep` for the sources. -/
def gridLoop (batches : ℕ → Option (List Item)) (stopDuring : ℕ → Bool)
    (total_target : ℕ) : List ℕ → RunState → RunState
  | [], s => { s with status := JobStatus.completed }
  | i :: rest, s =>
    if s.status ≠ JobStatus.running then { s with status := JobStatus.stopped }
    else if total_target ≤ s.results.all_results.length then
      { s with status := JobStatus.completed }
    else
      gridLoop batches stopDuring total_target rest (tileStep batches stopDuring i s)

/-- The loop state a job starts from once `update_job_status(job_id,
"running")` has run and nothing is accumulated yet. -/
def initState : RunState :=
  { status := JobStatus.running, results := ⟨[], []⟩, invoked := [] }

/-- A concrete record used to instantiate the loop theorems. -/
def exItem : Item :=
  { name := some "Cafe", category := none, address := none, website := none,
    email := none, phone := some "123-4567", location_link := none,
    raw_text := some "123 Main Street" }

/-- A record whose phone is non-empty but blank after stripping, used to
probe the key-derivation precedence. -/
def phoneBlankItem : Item :=
  { name := some "Cafe", category := none, address := none,
    website := some "http://x.com", email := none, phone := some " ",
    location_link := none, raw_text := none }

/-- The stall counter update of `engine.py` lines 340-343: increment when
the polled count repeats, reset to zero when it changes. -/
def nextCounter (current_count previous_count no_change_counter : ℕ) : ℕ :=
  if current_count = previous_count then no_change_counter + 1 else 0

/-- The scroll/poll loop of `ScraperEngine.run` (`engine.py` lines
333-359), driven by `counts k`, the visible entry count at the `k`-th
poll.  `fuel` bounds the number of iterations we unfold (the Python loop
has no such bound; `none` stands for running longer than `fuel` polls).
The result records whether the loop exited on the stall break (`true`)
or on reaching the target (`false`), together with the entry count at
exit. -/
def collectPolls (counts : ℕ → ℕ) (total : ℕ) :
    ℕ → ℕ → ℕ → ℕ → Option (Bool × ℕ)
  | 0, _, _, _ => none
  | fuel + 1, k, previous_count, no_change_counter =>
    if 5 ≤ nextCounter (counts k) previous_count no_change_counter then
      some (true, counts k)
    else if total ≤ counts k then some (false, counts k)
    else
      collectPolls counts total fuel (k + 1) (counts k)
        (nextCounter (counts k) previous_count no_change_counter)

/-- `ScraperEngine.run`'s collection phase: the guard `len(results) <
total` (with `results` still empty) skips the loop entirely when
`total = 0`; otherwise the poll loop runs from counters zero. -/
def runCollect (counts : ℕ → ℕ) (total fuel : ℕ) : Option (Bool × ℕ) :=
  if total = 0 then some (false, counts 0) else collectPolls counts total fuel 0 0 0

/-- Number of feed entries handed to the per-item harvester after the
loop: `elements[:total]` (`engine.py` line 363). -/
def collectedEntries (r : Option (Bool × ℕ)) (total : ℕ) : ℕ :=
  match r with
  | some (_, c) => min c total
  | none => 0

/-- `zoom_level = min(config.get("zoom_level", 15), 21)` (`main.py` line
51, `server.py` line 83). -/
def effective_zoom (config_zoom : ℤ) : ℤ :=
  min config_zoom 21

/-- Python `sum(c.isdigit() for c in s)`. -/
def digitCount (s : String) : ℕ :=
  s.data.countP (fun c => c.isDigit)

/-- The filtering pass of `Extractor.extract_phone` (`extractor.py` lines
60-68): strip each regex match and keep those whose digit count lies in
6..15, in order. -/
def validPhones (phoneMatches : List String) : List String :=
  (phoneMatches.map pyStrip).filter
    (fun r => 6 ≤ digitCount r ∧ digitCount r ≤ 15)

/-- `Extractor.extract_phone` (`extractor.py` lines 54-70).  The regex
engine is external: `phoneMatches` stands for the list of substrings of
`text` produced by `re.finditer` on the phone pattern.  Empty (falsy)
input returns `None`; otherwise the first stripped match with an
acceptable digit count is returned, if any. -/
def extract_phone (text : String) (phoneMatches : List String) : Option String :=
  if text = "" then none else (validPhones phoneMatches).head?

/-! Accumulator lemmas shared by the orchestrator claims. -/

theorem insertItem_of_mem {s : AccState} {r : Item} (h : makeKey r ∈ s.unique_ids) :
    insertItem s r = s := by
  simp [insertItem, h]

theorem mem_unique_ids_insertItem (s : AccState) (r : Item) :
    makeKey r ∈ (insertItem s r).unique_ids := by
  unfold insertItem
  by_cases h : makeKey r ∈ s.unique_ids <;> simp [h]

theorem insertItem_twice (s : AccState) (r : Item) :
    insertItem (insertItem s r) r = insertItem s r :=
  insertItem_of_mem (mem_unique_ids_insertItem s r)

theorem length_insertItem (s : AccState) (r : Item) :
    s.all_results.length ≤ (insertItem s r).all_results.length ∧
      (insertItem s r).all_results.length ≤ s.all_results.length + 1 := by
  unfold insertItem
  by_cases h : makeKey r ∈ s.unique_ids <;> simp [h]

theorem length_insertBatch (s : AccState) (b : List Item) :
    s.all_results.length ≤ (insertBatch s b).all_results.length := by
  induction b generalizing s with
  | nil => simp [insertBatch]
  | cons x xs ih =>
    exact le_trans (length_insertItem s x).1 (ih (insertItem s x))

theorem inv_insertItem {s : AccState} (hs : Inv s) (r : Item) : Inv (insertItem s r) := by
  obtain ⟨hnd, hmem⟩ := hs
  unfold insertItem
  by_cases h : makeKey r ∈ s.unique_ids
  · simpa [h] using ⟨hnd, hmem⟩
  · have hnotmap : makeKey r ∉ s.all_results.map makeKey := fun hc => h ((hmem _).mpr hc)
    simp only [h, if_neg, ite_false]
    refine ⟨?_, ?_⟩
    · rw [List.map_append, List.nodup_append_comm]
      simp only [List.map_cons, List.map_nil, List.singleton_append]
      exact List.nodup_cons.mpr ⟨hnotmap, hnd⟩
    · intro k
      simp only [List.mem_cons, List.map_append, List.mem_append, hmem k,
        List.map_cons, List.map_nil, List.mem_singleton]
      tauto

theorem inv_insertBatch {s : AccState} (hs : Inv s) (b : List Item) :
    Inv (insertBatch s b) := by
  induction b generalizing s with
  | nil => simpa [insertBatch] using hs
  | cons x xs ih => exact ih (inv_insertItem hs x)

theorem inv_empty : Inv ⟨[], []⟩ := by
  constructor <;> simp

theorem inv_runAccum (batches : List (List Item)) : Inv (runAccum batches) := by
  suffices h : ∀ s, Inv s → Inv (batches.foldl insertBatch s) from h _ inv_empty
  intro s hs
  induction batches generalizing s with
  | nil => simpa using hs
  | cons b bs ih => exact ih _ (inv_insertBatch hs b)

theorem insertItem_of_mem_results {s : AccState} (hs : Inv s) {r : Item}
    (h : makeKey r ∈ s.all_results.map makeKey) : insertItem s r = s :=
  insertItem_of_mem ((hs.2 _).mpr h)

/-- C1: throughout a grid-mining run the accumulated list never holds two
records with equal derived keys; offering a record whose key is already
accumulated leaves the state unchanged (first seen wins), inserting the
same record twice changes the size by at most one, and the accumulated
size never shrinks from one checkpoint to the next. -/
theorem C1_dedup_invariant (batches : List (List Item)) (r : Item) (b : List Item) :
    ((runAccum batches).all_results.map makeKey).Nodup ∧
    (makeKey r ∈ (runAccum batches).all_results.map makeKey →
      insertItem (runAccum batches) r = runAccum batches) ∧
    insertItem (insertItem (runAccum batches) r) r = insertItem (runAccum batches) r ∧
    (insertItem (insertItem (runAccum batches) r) r).all_results.length ≤
      (runAccum batches).all_results.length + 1 ∧
    (runAccum batches).all_results.length ≤
      (insertBatch (runAccum batches) b).all_results.length := by
  refine ⟨(inv_runAccum batches).1, insertItem_of_mem_results (inv_runAccum batches),
    insertItem_twice _ r, ?_, length_insertBatch _ b⟩
  rw [insertItem_twice]
  exact (length_insertItem _ r).2

/-- Witness for C1 at a concrete run: one batch holding one record, whose
key is indeed already accumulated afterwards, so re-offering it is a
no-op. -/
theorem C1_dedup_invariant_witness :
    makeKey exItem ∈ (runAccum [[exItem]]).all_results.map makeKey ∧
    insertItem (runAccum [[exItem]]) exItem = runAccum [[exItem]] :=
  ⟨by decide, (C1_dedup_invariant [[exItem]] exItem []).2.1 (by decide)⟩

/-- C2 counterexample: a record whose phone is the non-empty string
containing one blank has a non-empty `phone` field, yet the derived key
is the website-based one, not the phone-based key the claim prescribes. -/
theorem C2_key_precedence_counterexample :
    phoneBlankItem.phone.getD "" ≠ "" ∧
    makeKey phoneBlankItem ≠
      pyLower (pyStrip (phoneBlankItem.name.getD "")) ++ "|" ++
        pyStrip (phoneBlankItem.phone.getD "") := by
  decide

/-- C2 amended: key derivation is first-applicable-rule precedence on the
stripped fields — a phone that is non-empty after stripping gives the
phone key; else a website non-empty after stripping gives the website
key; else the key falls back to the name plus the first 20 characters of
the raw snippet.  A record whose phone and website are both non-empty
after stripping gets the phone key and (when the stripped values differ)
never the website key. -/
theorem C2_key_precedence (item : Item) :
    (pyStrip (item.phone.getD "") ≠ "" →
      makeKey item =
        pyStrip (pyLower (item.name.getD "")) ++ "|" ++ pyStrip (item.phone.getD "")) ∧
    (pyStrip (item.phone.getD "") = "" → pyStrip (item.website.getD "") ≠ "" →
      makeKey item =
        pyStrip (pyLower (item.name.getD "")) ++ "|" ++ pyStrip (item.website.getD "")) ∧
    (pyStrip (item.phone.getD "") = "" → pyStrip (item.website.getD "") = "" →
      makeKey item =
        pyStrip (pyLower (item.name.getD "")) ++ "|" ++
          pyStrip (pyLower (pySlice 20 (item.raw_text.getD "")))) ∧
    (pyStrip (item.phone.getD "") ≠ "" → pyStrip (item.website.getD "") ≠ "" →
      pyStrip (item.phone.getD "") ≠ pyStrip (item.website.getD "") →
      makeKey item ≠
        pyStrip (pyLower (item.name.getD "")) ++ "|" ++ pyStrip (item.website.getD "")) := by
  refine ⟨fun hp => ?_, fun hp hw => ?_, fun hp hw => ?_, fun hp _ hne => ?_⟩
  · simp [makeKey, hp]
  · simp [makeKey, hp, hw]
  · simp [makeKey, hp, hw]
  · simp only [makeKey, hp, if_true, ite_true, ne_eq]
    intro hc
    have h2 := congrArg String.data hc
    simp only [String.data_append] at h2
    exact hne (String.ext (List.append_cancel_left h2))

/-- Witness for C2 at a concrete record with both phone and website:
the phone rule applies and the key is the phone-based one. -/
theorem C2_key_precedence_witness :
    pyStrip ((Item.mk (some "Cafe") none none (some "http://x.com") none
        (some "555-1234") none none).phone.getD "") ≠ "" ∧
    makeKey (Item.mk (some "Cafe") none none (some "http://x.com") none
        (some "555-1234") none none) =
      pyStrip (pyLower ((Item.mk (some "Cafe") none none (some "http://x.com") none
        (some "555-1234") none none).name.getD "")) ++ "|" ++
      pyStrip ((Item.mk (some "Cafe") none none (some "http://x.com") none
        (some "555-1234") none none).phone.getD "") :=
  ⟨by decide,
    (C2_key_precedence (Item.mk (some "Cafe") none none (some "http://x.com") none
      (some "555-1234") none none)).1 (by decide)⟩

/-! The stall-detection loop. -/

theorem collectPolls_const {counts : ℕ → ℕ} {c total : ℕ}
    (hconst : ∀ k, counts k = c) (hc : c < total) :
    ∀ fuel cnt k, cnt < 5 → 5 ≤ fuel + cnt →
      collectPolls counts total fuel k c cnt = some (true, c) := by
  intro fuel
  induction fuel with
  | zero => intro cnt k h1 h2; omega
  | succ f ih =>
    intro cnt k h1 h2
    rw [collectPolls]
    simp only [hconst]
    have hnc : nextCounter c c cnt = cnt + 1 := by simp [nextCounter]
    rw [hnc]
    by_cases h5 : 5 ≤ cnt + 1
    · rw [if_pos h5]
    · rw [if_neg h5, if_neg (by omega : ¬ total ≤ c)]
      exact ih (cnt + 1) (k + 1) (by omega) (by omega)

/-- C3: a feed whose visible entry count is the constant `c < total`
makes the collection loop exit on the stall break within the first six
polls (so any fuel bound of at least six suffices), handing fewer than
`total` entries to the harvester; and the no-change counter is
incremented exactly when a poll repeats the previous count and reset to
zero when the count changes. -/
theorem C3_stall_termination (counts : ℕ → ℕ) (total c fuel : ℕ)
    (hconst : ∀ k, counts k = c) (hc : c < total) (hfuel : 6 ≤ fuel) :
    runCollect counts total fuel = some (true, c) ∧
    collectedEntries (runCollect counts total fuel) total < total ∧
    (∀ current previous cnt,
      (current = previous → nextCounter current previous cnt = cnt + 1) ∧
      (current ≠ previous → nextCounter current previous cnt = 0)) := by
  obtain ⟨f, rfl⟩ : ∃ f, fuel = f + 1 := ⟨fuel - 1, by omega⟩
  have hkey : collectPolls counts total (f + 1) 0 0 0 = some (true, c) := by
    rw [collectPolls]
    simp only [hconst]
    have h1 : nextCounter c 0 0 < 5 := by
      unfold nextCounter; split <;> omega
    rw [if_neg (by omega), if_neg (by omega : ¬ total ≤ c)]
    exact collectPolls_const hconst hc f (nextCounter c 0 0) 1 h1 (by omega)
  have hrc : runCollect counts total (f + 1) = some (true, c) := by
    unfold runCollect
    rw [if_neg (by omega : ¬ total = 0)]
    exact hkey
  refine ⟨hrc, ?_, ?_⟩
  · rw [hrc]
    simp only [collectedEntries]
    omega
  · intro current previous cnt
    unfold nextCounter
    constructor
    · intro h; rw [if_pos h]
    · intro h; rw [if_neg h]

/-- Witness for C3: a feed stuck at three entries against a target of
ten exits on the stall break with three entries, fewer than ten. -/
theorem C3_stall_termination_witness :
    runCollect (fun _ => 3) 10 6 = some (true, 3) ∧
    collectedEntries (runCollect (fun _ => 3) 10 6) 10 < 10 :=
  ⟨(C3_stall_termination (fun _ => 3) 10 3 6 (fun _ => rfl) (by omega) (by omega)).1,
   (C3_stall_termination (fun _ => 3) 10 3 6 (fun _ => rfl) (by omega) (by omega)).2.1⟩

/-! The grid-mining loop and job lifecycle. -/

theorem tileStep_results (batches : ℕ → Option (List Item)) (stopDuring : ℕ → Bool)
    (i : ℕ) (s : RunState) :
    (tileStep batches stopDuring i s).results = applyBatch (batches i) s.results := by
  unfold tileStep
  split <;> rfl

theorem tileStep_invoked (batches : ℕ → Option (List Item)) (stopDuring : ℕ → Bool)
    (i : ℕ) (s : RunState) :
    (tileStep batches stopDuring i s).invoked = s.invoked ++ [i] := by
  unfold tileStep
  split <;> rfl

theorem tileStep_status_of_stop (batches : ℕ → Option (List Item)) (stopDuring : ℕ → Bool)
    (i : ℕ) (s : RunState) (hrun : s.status = JobStatus.running)
    (hstop : stopDuring i = true) :
    (tileStep batches stopDuring i s).status = JobStatus.stopping := by
  unfold tileStep
  rw [if_pos ⟨hstop, hrun⟩]

theorem gridLoop_nil (batches : ℕ → Option (List Item)) (stopDuring : ℕ → Bool)
    (total_target : ℕ) (s : RunState) :
    gridLoop batches stopDuring total_target [] s = { s with status := JobStatus.completed } := by
  rw [gridLoop]

theorem gridLoop_not_running (batches : ℕ → Option (List Item)) (stopDuring : ℕ → Bool)
    (total_target i : ℕ) (rest : List ℕ) (s : RunState)
    (h : s.status ≠ JobStatus.running) :
    gridLoop batches stopDuring total_target (i :: rest) s =
      { s with status := JobStatus.stopped } := by
  rw [gridLoop, if_pos h]

theorem gridLoop_target_met (batches : ℕ → Option (List Item)) (stopDuring : ℕ → Bool)
    (total_target i : ℕ) (rest : List ℕ) (s : RunState)
    (hrun : s.status = JobStatus.running)
    (hdone : total_target ≤ s.results.all_results.length) :
    gridLoop batches stopDuring total_target (i :: rest) s =
      { s with status := JobStatus.completed } := by
  rw [gridLoop, if_neg (by simp [hrun]), if_pos hdone]

theorem gridLoop_cons (batches : ℕ → Option (List Item)) (stopDuring : ℕ → Bool)
    (total_target i : ℕ) (rest : List ℕ) (s : RunState)
    (hrun : s.status = JobStatus.running)
    (hrem : s.results.all_results.length < total_target) :
    gridLoop batches stopDuring total_target (i :: rest) s =
      gridLoop batches stopDuring total_target rest (tileStep batches stopDuring i s) := by
  rw [gridLoop, if_neg (by simp [hrun]), if_neg (by omega)]

theorem gridLoop_terminal (batches : ℕ → Option (List Item)) (stopDuring : ℕ → Bool)
    (total_target : ℕ) (tiles : List ℕ) (s : RunState)
    (h : s.status = JobStatus.running ∨ s.status = JobStatus.stopping) :
    (gridLoop batches stopDuring total_target tiles s).status = JobStatus.completed ∨
    (gridLoop batches stopDuring total_target tiles s).status = JobStatus.stopped := by
  induction tiles generalizing s with
  | nil => left; rw [gridLoop_nil]
  | cons i rest ih =>
    by_cases hrun : s.status = JobStatus.running
    · by_cases hdone : total_target ≤ s.results.all_results.length
      · left; rw [gridLoop_target_met _ _ _ _ _ _ hrun hdone]
      · rw [gridLoop_cons _ _ _ _ _ _ hrun (by omega)]
        refine ih _ ?_
        unfold tileStep
        split
        · right; rfl
        · left; exact hrun
    · right
      rw [gridLoop_not_running _ _ _ _ _ _ hrun]

/-- C4 counterexample: a single-tile grid with a stop requested while
that (final) tile is being harvested.  The tile is harvested, but the
loop ends with status `completed`, not `stopped`, since no further tile
boundary observes the stop request. -/
theorem C4_coop_stop_counterexample :
    (gridLoop (fun _ => some [exItem]) (fun i => i == 0) 200 [0] initState).invoked = [0] ∧
    (gridLoop (fun _ => some [exItem]) (fun i => i == 0) 200 [0] initState).status =
      JobStatus.completed ∧
    JobStatus.completed ≠ JobStatus.stopped := by
  refine ⟨by decide, by decide, by decide⟩

/-- C4 amended: a stop requested while tile `i` is being harvested, with
at least one further tile pending, lets tile `i` complete (its batch is
accumulated and its invocation recorded), is observed at the next tile
boundary before any further tile is invoked, and drives the job status
to `stopped` — but when the stop arrives during the final tile, the loop
instead finishes with status `completed` (see the counterexample). -/
theorem C4_coop_stop (batches : ℕ → Option (List Item)) (stopDuring : ℕ → Bool)
    (total_target i j : ℕ) (rest : List ℕ) (s : RunState)
    (hrun : s.status = JobStatus.running)
    (hrem : s.results.all_results.length < total_target)
    (hstop : stopDuring i = true) :
    (gridLoop batches stopDuring total_target (i :: j :: rest) s).status =
      JobStatus.stopped ∧
    (gridLoop batches stopDuring total_target (i :: j :: rest) s).invoked =
      s.invoked ++ [i] ∧
    (gridLoop batches stopDuring total_target (i :: j :: rest) s).results =
      applyBatch (batches i) s.results := by
  rw [gridLoop_cons _ _ _ _ _ _ hrun hrem]
  have hstatus := tileStep_status_of_stop batches stopDuring i s hrun hstop
  rw [gridLoop_not_running _ _ _ _ _ _ (by rw [hstatus]; decide)]
  exact ⟨rfl, tileStep_invoked _ _ _ _, tileStep_results _ _ _ _⟩

/-- Witness for C4: concrete two-tile run with the stop arriving during
the first tile; the job ends `stopped` having invoked only tile 0. -/
theorem C4_coop_stop_witness :
    (gridLoop (fun _ => some [exItem]) (fun _ => true) 200 [0, 1] initState).status =
      JobStatus.stopped ∧
    (gridLoop (fun _ => some [exItem]) (fun _ => true) 200 [0, 1] initState).invoked =
      initState.invoked ++ [0] ∧
    (gridLoop (fun _ => some [exItem]) (fun _ => true) 200 [0, 1] initState).results =
      applyBatch (some [exItem]) initState.results :=
  C4_coop_stop (fun _ => some [exItem]) (fun _ => true) 200 0 1 [] initState
    rfl (by decide) rfl

/-- C7: at a tile boundary with the target already met, the loop stops at
once — the returned state keeps the accumulation and the invocation list
unchanged (no collection is invoked for any remaining tile) and the
status becomes `completed`, a normal termination. -/
theorem C7_early_target_stop (batches : ℕ → Option (List Item)) (stopDuring : ℕ → Bool)
    (total_target : ℕ) (tiles : List ℕ) (s : RunState)
    (hrun : s.status = JobStatus.running)
    (hdone : total_target ≤ s.results.all_results.length) :
    gridLoop batches stopDuring total_target tiles s =
      { s with status := JobStatus.completed } ∧
    (gridLoop batches stopDuring total_target tiles s).invoked = s.invoked ∧
    (gridLoop batches stopDuring total_target tiles s).status = JobStatus.completed := by
  have h : gridLoop batches stopDuring total_target tiles s =
      { s with status := JobStatus.completed } := by
    cases tiles with
    | nil => exact gridLoop_nil _ _ _ _
    | cons i rest => exact gridLoop_target_met _ _ _ _ _ _ hrun hdone
  exact ⟨h, by rw [h], by rw [h]⟩

/-- Witness for C7: a running state already holding one record against a
target of one; seven further tiles are all skipped. -/
theorem C7_early_target_stop_witness :
    gridLoop (fun _ => some [exItem]) (fun _ => false) 1 [1, 2, 3, 4, 5, 6, 7]
        ⟨JobStatus.running, ⟨[exItem], [makeKey exItem]⟩, [0]⟩ =
      { status := JobStatus.completed, results := ⟨[exItem], [makeKey exItem]⟩,
        invoked := [0] } :=
  (C7_early_target_stop (fun _ => some [exItem]) (fun _ => false) 1 [1, 2, 3, 4, 5, 6, 7]
    ⟨JobStatus.running, ⟨[exItem], [makeKey exItem]⟩, [0]⟩ rfl (by decide)).1

/-- C8: a tile whose harvest raises (modelled by `batches i = none`)
contributes zero new results — the post-tile state carries the unchanged
accumulation, records the invocation, and the loop simply continues with
the remaining tiles; and the loop as a whole always ends `completed` or
`stopped`, never in the error status, so one tile's failure cannot abort
the job. -/
theorem C8_tile_failure (batches : ℕ → Option (List Item)) (stopDuring : ℕ → Bool)
    (total_target i : ℕ) (rest : List ℕ) (s : RunState)
    (hrun : s.status = JobStatus.running)
    (hrem : s.results.all_results.length < total_target)
    (hfail : batches i = none) :
    gridLoop batches stopDuring total_target (i :: rest) s =
      gridLoop batches stopDuring total_target rest (tileStep batches stopDuring i s) ∧
    (tileStep batches stopDuring i s).results = s.results ∧
    (tileStep batches stopDuring i s).invoked = s.invoked ++ [i] ∧
    ((gridLoop batches stopDuring total_target (i :: rest) s).status =
        JobStatus.completed ∨
      (gridLoop batches stopDuring total_target (i :: rest) s).status =
        JobStatus.stopped) := by
  refine ⟨gridLoop_cons _ _ _ _ _ _ hrun hrem, ?_, tileStep_invoked _ _ _ _,
    gridLoop_terminal _ _ _ _ _ (Or.inl hrun)⟩
  rw [tileStep_results, hfail]
  rfl

/-- Witness for C8: a run whose first tile fails outright still reaches
a terminal status with the failed tile skipped. -/
theorem C8_tile_failure_witness :
    gridLoop (fun _ => none) (fun _ => false) 10 [0, 1] initState =
      gridLoop (fun _ => none) (fun _ => false) 10 [1]
        (tileStep (fun _ => none) (fun _ => false) 0 initState) ∧
    (tileStep (fun _ => none) (fun _ => false) 0 initState).results = initState.results ∧
    (tileStep (fun _ => none) (fun _ => false) 0 initState).invoked =
      initState.invoked ++ [0] ∧
    ((gridLoop (fun _ => none) (fun _ => false) 10 [0, 1] initState).status =
        JobStatus.completed ∨
      (gridLoop (fun _ => none) (fun _ => false) 10 [0, 1] initState).status =
        JobStatus.stopped) :=
  C8_tile_failure (fun _ => none) (fun _ => false) 10 0 [1] initState rfl (by decide) rfl

/-! The grid generator. -/

theorem generate_grid_length (center_lat center_lon size_km step_km cos_lat : ℚ) :
    (generate_grid center_lat center_lon size_km step_km cos_lat).length =
      ((ratTrunc (size_km / step_km) * 2 + 1).toNat) ^ 2 := by
  simp only [generate_grid]
  rw [List.length_flatMap]
  simp only [Function.comp_def, List.length_map, List.length_range]
  rw [List.map_const', List.length_range, List.sum_replicate, smul_eq_mul, sq]

/-- C5: for positive radius and spacing the grid has exactly
`(2 * floor(radius / spacing) + 1) ^ 2` tiles; when the spacing exceeds
the radius the grid degenerates to the single center tile; and the grid
is never empty. -/
theorem C5_grid_cardinality (center_lat center_lon radius_km spacing_km cos_lat : ℚ)
    (hR : 0 < radius_km) (hS : 0 < spacing_km) :
    (generate_grid center_lat center_lon radius_km spacing_km cos_lat).length =
      (2 * (⌊radius_km / spacing_km⌋).toNat + 1) ^ 2 ∧
    (radius_km < spacing_km →
      generate_grid center_lat center_lon radius_km spacing_km cos_lat =
        [(center_lat, center_lon)]) ∧
    generate_grid center_lat center_lon radius_km spacing_km cos_lat ≠ [] := by
  have hq : 0 ≤ radius_km / spacing_km := div_nonneg hR.le hS.le
  have hfl : 0 ≤ ⌊radius_km / spacing_km⌋ := Int.floor_nonneg.mpr hq
  have htr : ratTrunc (radius_km / spacing_km) = ⌊radius_km / spacing_km⌋ := by
    unfold ratTrunc
    rw [if_pos hq]
  have hlen : (generate_grid center_lat center_lon radius_km spacing_km cos_lat).length =
      (2 * (⌊radius_km / spacing_km⌋).toNat + 1) ^ 2 := by
    rw [generate_grid_length, htr]
    congr 1
    omega
  refine ⟨hlen, ?_, ?_⟩
  · intro hRS
    have hlt1 : radius_km / spacing_km < 1 := (div_lt_one hS).mpr hRS
    have hfl0 : ⌊radius_km / spacing_km⌋ = 0 := by
      rw [Int.floor_eq_zero_iff]
      exact ⟨hq, hlt1⟩
    have hr1 : List.range 1 = [0] := rfl
    simp only [generate_grid, ratTrunc, if_pos hq, hfl0]
    norm_num [hr1]
  · intro hnil
    have h0 : (0 : ℕ) = (2 * (⌊radius_km / spacing_km⌋).toNat + 1) ^ 2 := by
      rw [← hlen, hnil]
      rfl
    have h1 : 0 < (2 * (⌊radius_km / spacing_km⌋).toNat + 1) ^ 2 := by positivity
    omega

/-- Witness for C5 with the spec's own example, radius 6 and spacing 2,
and additionally a degenerate pair radius 1, spacing 2. -/
theorem C5_grid_cardinality_witness :
    (generate_grid 0 0 6 2 1).length = (2 * (⌊(6 : ℚ) / 2⌋).toNat + 1) ^ 2 ∧
    generate_grid 0 0 6 2 1 ≠ [] ∧
    generate_grid 0 0 1 2 1 = [((0 : ℚ), (0 : ℚ))] :=
  ⟨(C5_grid_cardinality 0 0 6 2 1 (by norm_num) (by norm_num)).1,
   (C5_grid_cardinality 0 0 6 2 1 (by norm_num) (by norm_num)).2.2,
   (C5_grid_cardinality 0 0 1 2 1 (by norm_num) (by norm_num)).2.1 (by norm_num)⟩

theorem needed_steps_nonneg (n : ℕ) (hn : 1 ≤ n) : 0 ≤ needed_steps n := by
  unfold needed_steps
  apply Int.ceil_nonneg
  have h1 : (1 : ℝ) ≤ Real.sqrt n := by
    rw [show (1 : ℝ) = Real.sqrt 1 by simp]
    exact Real.sqrt_le_sqrt (by exact_mod_cast hn)
  linarith

theorem needed_steps_spec (n : ℕ) (hn : 1 ≤ n) :
    (n : ℤ) ≤ (2 * needed_steps n + 1) ^ 2 := by
  have hceil : (Real.sqrt n - 1) / 2 ≤ (needed_steps n : ℝ) := Int.le_ceil _
  have hsq : Real.sqrt n ≤ 2 * (needed_steps n : ℝ) + 1 := by linarith
  have h0 : (0 : ℝ) ≤ Real.sqrt n := Real.sqrt_nonneg _
  have h2 : (n : ℝ) ≤ (2 * (needed_steps n : ℝ) + 1) ^ 2 := by
    calc (n : ℝ) = Real.sqrt n ^ 2 := (Real.sq_sqrt (by positivity)).symm
    _ ≤ (2 * (needed_steps n : ℝ) + 1) ^ 2 := pow_le_pow_left₀ h0 hsq 2
  exact_mod_cast h2

/-- C6: when grid mining is active and the configured grid holds fewer
tiles than `needed_tiles = total // 100 + 1`, the auto-expanded radius
`needed_steps * 2 + 1` satisfies the claimed bound
`(2 * ceil((sqrt(needed_tiles) - 1) / 2) + 1) ^ 2 ≥ needed_tiles`, and the
grid regenerated from it holds at least `needed_tiles` tiles. -/
theorem C6_adaptive_grid (total_target : ℕ) (grid_size center_lat center_lon cos_lat : ℚ)
    (htot : 120 < total_target)
    (hsmall : current_tiles grid_size 2 < (needed_tiles total_target : ℤ)) :
    (needed_tiles total_target : ℤ) ≤
      (2 * needed_steps (needed_tiles total_target) + 1) ^ 2 ∧
    needed_tiles total_target ≤
      (generate_grid center_lat center_lon (final_grid_size total_target grid_size) 2
        cos_lat).length := by
  set n := needed_tiles total_target with hn
  have hn1 : 1 ≤ n := by
    unfold needed_tiles at hn
    omega
  have hspec := needed_steps_spec n hn1
  have hs0 := needed_steps_nonneg n hn1
  refine ⟨hspec, ?_⟩
  have hfinal : final_grid_size total_target grid_size =
      (needed_steps n : ℚ) * 2 + 1 := by
    unfold final_grid_size
    rw [if_pos hsmall]
  rw [hfinal, generate_grid_length]
  have hdiv : ((needed_steps n : ℚ) * 2 + 1) / 2 = (needed_steps n : ℚ) + 1 / 2 := by
    ring
  have htr : ratTrunc (((needed_steps n : ℚ) * 2 + 1) / 2) = needed_steps n := by
    unfold ratTrunc
    rw [if_pos (by positivity), hdiv, Int.floor_int_add]
    norm_num
  rw [htr]
  have ha : ((needed_steps n * 2 + 1).toNat : ℤ) = needed_steps n * 2 + 1 :=
    Int.toNat_of_nonneg (by omega)
  have : (n : ℤ) ≤ ((needed_steps n * 2 + 1).toNat : ℤ) ^ 2 := by
    rw [ha]
    calc (n : ℤ) ≤ (2 * needed_steps n + 1) ^ 2 := hspec
    _ = (needed_steps n * 2 + 1) ^ 2 := by ring
  exact_mod_cast this

/-- Witness for C6: a target of 1000 with the default configured grid
size of 3 km needs 11 tiles but is configured for 9, so the expansion
kicks in. -/
theorem C6_adaptive_grid_witness :
    (needed_tiles 1000 : ℤ) ≤ (2 * needed_steps (needed_tiles 1000) + 1) ^ 2 ∧
    needed_tiles 1000 ≤
      (generate_grid 0 0 (final_grid_size 1000 3) 2 1).length :=
  C6_adaptive_grid 1000 3 0 0 1 (by norm_num)
    (by
      unfold current_tiles current_steps ratTrunc needed_tiles
      rw [if_pos (by norm_num : (0 : ℚ) ≤ 3 / 2),
        (by norm_num [Int.floor_eq_iff] : ⌊(3 : ℚ) / 2⌋ = 1)]
      norm_num)

/-! Zoom clamping. -/

/-- C9 counterexample: a configured zoom level of `-1` is passed through
unchanged — only the upper bound is clamped — so the zoom used for tile
queries can fall below 1. -/
theorem C9_zoom_range_counterexample :
    ¬ (1 ≤ effective_zoom (-1) ∧ effective_zoom (-1) ≤ 21) := by
  norm_num [effective_zoom]

/-- C9 amended: the effective zoom never exceeds 21, and whenever the
configured zoom level is at least 1 the effective zoom lies in `[1, 21]`;
the code clamps only the upper bound, so a configured level below 1 is
used as-is. -/
theorem C9_zoom_range (config_zoom : ℤ) (h : 1 ≤ config_zoom) :
    1 ≤ effective_zoom config_zoom ∧ effective_zoom config_zoom ≤ 21 := by
  unfold effective_zoom
  exact ⟨le_min h (by norm_num), min_le_right _ _⟩

/-- Witness for C9 at the default configured zoom of 15. -/
theorem C9_zoom_range_witness :
    1 ≤ (15 : ℤ) ∧ 1 ≤ effective_zoom 15 ∧ effective_zoom 15 ≤ 21 :=
  ⟨by norm_num, C9_zoom_range 15 (by norm_num)⟩

/-! Phone extraction. -/

/-- C10: `extract_phone` either returns `None` or returns the stripped
form of one of the regex matches — hence of a substring of the input —
which is non-empty and has between 6 and 15 digit characters; a
candidate with a digit count outside that range is never returned. -/
theorem C10_extract_phone (text : String) (phoneMatches : List String)
    (hsub : ∀ m ∈ phoneMatches, ∃ pre post, text = pre ++ m ++ post) :
    extract_phone text phoneMatches = none ∨
    ∃ s m pre post, extract_phone text phoneMatches = some s ∧
      text = pre ++ m ++ post ∧ s = pyStrip m ∧ s ≠ "" ∧
      6 ≤ digitCount s ∧ digitCount s ≤ 15 := by
  unfold extract_phone
  by_cases htext : text = ""
  · left; rw [if_pos htext]
  · rw [if_neg htext]
    cases hh : (validPhones phoneMatches).head? with
    | none => left; rfl
    | some s =>
      right
      have hmem : s ∈ validPhones phoneMatches := by
        cases hl : validPhones phoneMatches with
        | nil => simp [hl] at hh
        | cons a l =>
          simp only [hl, List.head?_cons, Option.some.injEq] at hh
          simp [hl, hh]
      unfold validPhones at hmem
      rw [List.mem_filter] at hmem
      obtain ⟨hmap, hcond⟩ := hmem
      rw [List.mem_map] at hmap
      obtain ⟨m, hm, hms⟩ := hmap
      obtain ⟨pre, post, hpre⟩ := hsub m hm
      have hdigits : 6 ≤ digitCount s ∧ digitCount s ≤ 15 := by
        simpa using hcond
      have hne : s ≠ "" := by
        intro hs
        have : digitCount s = 0 := by rw [hs]; rfl
        omega
      exact ⟨s, m, pre, post, rfl, hpre, hms.symm, hne, hdigits⟩

/-- Witness for C10 on a concrete snippet whose single regex match is a
well-formed phone number. -/
theorem C10_extract_phone_witness :
    extract_phone "call 555-123-4567 now" ["555-123-4567"] = none ∨
    ∃ s m pre post, extract_phone "call 555-123-4567 now" ["555-123-4567"] = some s ∧
      "call 555-123-4567 now" = pre ++ m ++ post ∧ s = pyStrip m ∧ s ≠ "" ∧
      6 ≤ digitCount s ∧ digitCount s ≤ 15 :=
  C10_extract_phone "call 555-123-4567 now" ["555-123-4567"]
    (by
      intro m hm
      simp only [List.mem_singleton] at hm
      subst hm
      exact ⟨"call ", " now", rfl⟩)

end Anti
